import Mathlib

/-!
Low-power analog front end (PSoC 6): the acquisition pipeline of `main.c`.

A shallow embedding of the interrupt-driven acquisition pipeline of `main.c`:
the two interrupt handlers `fifo_interrupt` and `dma_interrupt`, the control
loop of `main`, and the averaging routine `calculate_avg`.

Conventions of the embedding

* Machine integers are `Nat`/`Int` with explicit wrap-around: `uint8_t` values
  are reduced `% 256`, `uint16_t` values `% 65536`, `uint32_t` values `% 2^32`,
  and a conversion to `int16_t` is `toInt16`.
* The build-time macros of `main.c` (`SAMPLES_PER_FIFO_LEVEL_INTR` and the
  literal window length `5`) are the fields of `Config`; `build` is the
  configuration of the source file.
* Constants and functions of the peripheral driver library, which `main.c`
  uses but does not define, are the fields of `Pdl`.
* The DMA destination is kept as an offset, counted in `uint16_t` elements,
  from the base of `sample_buffer`.
-/

namespace AnalogFrontEnd

/-! ## Build-time configuration -/

/-- Macros of `main.c`. `SAMPLES_PER_FIFO_LEVEL_INTR` is the macro of that
name; `WINDOW_BLOCKS` is the literal `5` that appears both in
`MAX_BUFFER_LENGTH` and in the test `dma_count == 5`. -/
structure Config where
  SAMPLES_PER_FIFO_LEVEL_INTR : Nat
  WINDOW_BLOCKS : Nat
  deriving DecidableEq, Repr

/-- `#define MAX_BUFFER_LENGTH (SAMPLES_PER_FIFO_LEVEL_INTR*5)`. -/
def Config.MAX_BUFFER_LENGTH (cfg : Config) : Nat :=
  cfg.SAMPLES_PER_FIFO_LEVEL_INTR * cfg.WINDOW_BLOCKS

/-- The configuration compiled into `main.c`: 40 samples per FIFO level
interrupt, 5 blocks per window. -/
def build : Config := ⟨40, 5⟩

/-! ## Machine integer conversions -/

/-- Conversion of an integer value to `int16_t` (two's complement wrap). -/
def toInt16 (n : Int) : Int := (n + 32768) % 65536 - 32768

/-- Conversion of an integer value to `uint32_t`. -/
def toUInt32 (n : Int) : Nat := (n % 4294967296).toNat

/-- Conversion of an unsigned value to `uint16_t`. -/
def toUInt16 (n : Nat) : Nat := n % 65536

/-! ## `calculate_avg` -/

/-- Loop variables of the `for` loop of `calculate_avg`: the `uint16_t` index
`i` and the `uint32_t` accumulator `result_sum`. -/
structure AvgLoop where
  i : Nat
  result_sum : Nat
  deriving DecidableEq, Repr

/-- One pass through the loop body followed by the increment:
`result_sum += sample_data[i]; i++`, in 32-bit and 16-bit arithmetic. A read
past the end of the list (undefined in C) yields 0. -/
def avg_loop_step (sample_data : List Nat) (st : AvgLoop) : AvgLoop :=
  { i := (st.i + 1) % 65536
    result_sum := (st.result_sum + sample_data.getD st.i 0) % 4294967296 }

/-- The loop `for (uint16_t i = 0; i < MAX_BUFFER_LENGTH; i++)` started in
state `st`, with a bound on the number of loop tests. `none` means the bound
was reached before the loop exited. -/
def avg_loop (len : Nat) (sample_data : List Nat) : Nat → AvgLoop → Option Nat
  | 0, _ => none
  | fuel + 1, st =>
    if st.i < len then avg_loop len sample_data fuel (avg_loop_step sample_data st)
    else some st.result_sum

/-- Number of loop tests granted to the loop of `calculate_avg`. The index is
a `uint16_t`, so a run that exits does so within 65536 tests; a buffer length
of 65536 or more makes the C loop run forever (see `avg_loop_diverges`). -/
def avgFuel : Nat := 65536

/-- `static uint16_t calculate_avg(uint16_t sample_data[])`.

`countsTo_mVolts` stands for `Cy_SAR_CountsTo_mVolts(SAR0, CHANNEL0, ·)` of the
driver library, whose prototype takes the counts as `int16_t` and returns
`int16_t`: the mean is converted to `int16_t` on the way in, and the result is
converted to `uint32_t` when stored into `result_sum` and to `uint16_t` by the
`return`. The result is `none` when the loop does not exit or when the
division is by zero. -/
def calculate_avg (cfg : Config) (countsTo_mVolts : Int → Int)
    (sample_data : List Nat) : Option Nat :=
  match avg_loop cfg.MAX_BUFFER_LENGTH sample_data avgFuel ⟨0, 0⟩ with
  | none => none
  | some result_sum =>
    if cfg.MAX_BUFFER_LENGTH = 0 then none
    else
      let result_sum := result_sum / cfg.MAX_BUFFER_LENGTH
      let result_sum := toUInt32 (toInt16 (countsTo_mVolts (toInt16 (result_sum : Int))))
      some (toUInt16 result_sum)

/-! ## Driver library interface -/

/-- Constants and functions of the peripheral driver library that `main.c`
uses and does not define: the two DMA interrupt causes the DMA handler compares
against, the three FIFO interrupt masks, and the counts-to-millivolt
conversion of the SAR driver. -/
structure Pdl where
  CY_DMA_INTR_CAUSE_COMPLETION : Nat
  CY_DMA_INTR_CAUSE_CURR_PTR_NULL : Nat
  CY_SAR_INTR_FIFO_LEVEL : Nat
  CY_SAR_INTR_FIFO_UNDERFLOW : Nat
  CY_SAR_INTR_FIFO_OVERFLOW : Nat
  Cy_SAR_CountsTo_mVolts : Int → Int

/-- An instance of the driver interface for concrete runs: the DMA causes as
numbered in `cy_en_dma_intr_cause_t` (completion 1, null current pointer 6),
the FIFO interrupt bits taken as level 1, overflow 2, underflow 4, and a 1:1
conversion of counts to millivolts. -/
def psoc6 : Pdl :=
  { CY_DMA_INTR_CAUSE_COMPLETION := 1
    CY_DMA_INTR_CAUSE_CURR_PTR_NULL := 6
    CY_SAR_INTR_FIFO_LEVEL := 1
    CY_SAR_INTR_FIFO_UNDERFLOW := 4
    CY_SAR_INTR_FIFO_OVERFLOW := 2
    Cy_SAR_CountsTo_mVolts := id }

/-! ## Program state -/

/-- A `printf` call of `main`, kept with its arguments. -/
inductive Out where
  /-- A `printf` of a constant string. -/
  | text (s : String)
  /-- The call `printf("DMA ERROR %d\r\n", adc_dma_error)`. -/
  | dmaError (code : Nat)
  /-- The call `printf("Average of %d Samples: %dmV\r\n", MAX_BUFFER_LENGTH, average)`. -/
  | average (n : Nat) (v : Int)
  deriving DecidableEq, Repr

/-- The characters a `printf` call sends to the UART. -/
def Out.render : Out → String
  | .text s => s
  | .dmaError code => "DMA ERROR " ++ toString code ++ "\r\n"
  | .average n v => "Average of " ++ toString n ++ " Samples: " ++ toString v ++ "mV\r\n"

/-- Whether an output record is a window-average report. -/
def Out.isAverage : Out → Bool
  | .average _ _ => true
  | _ => false

/-- Number of window-average reports in an output log. -/
def avgCount (uart : List Out) : Nat := uart.countP Out.isAverage

/-- Driver calls that write to the hardware, in the order they are made. -/
inductive PdlCall where
  /-- The call `Cy_DMA_Channel_ClearInterrupt(...)`. -/
  | dmaClearInterrupt
  /-- The call `Cy_SAR_ClearFifoInterrupt(SAR0, mask)`. -/
  | sarClearFifoInterrupt (mask : Nat)
  /-- The call `Cy_DMA_Descriptor_SetDstAddress(..., sample_buffer + offset)`. -/
  | dmaSetDstAddress (offset : Nat)
  deriving DecidableEq, Repr

/-- Where the control loop of `main` stands between two atomic steps: at the
deep-sleep call at the head of the loop, or in the busy-wait
`while(!dmaIntrTriggered);`. -/
inductive Pc where
  | sleep
  | waitDma
  deriving DecidableEq, Repr

/-- Globals of `main.c`, the locals of `main`, the hardware registers the
handlers read and write, and the logs of output and driver calls. -/
structure State where
  /-- The global `volatile bool fifoIntrTriggered`. -/
  fifoIntrTriggered : Bool
  /-- The global `volatile bool dmaIntrTriggered`. -/
  dmaIntrTriggered : Bool
  /-- The global `volatile uint8_t adc_dma_error`. -/
  adc_dma_error : Nat
  /-- The global `volatile uint8_t adc_dma_done`. -/
  adc_dma_done : Nat
  /-- The global `uint16_t sample_buffer[MAX_BUFFER_LENGTH]`. -/
  sample_buffer : List Nat
  /-- The local `uint8_t dma_count` of `main`. -/
  dma_count : Nat
  /-- The local `int16_t average` of `main`. -/
  average : Int
  /-- Destination address of the DMA descriptor, as an element offset from
  `sample_buffer`. -/
  dstAddress : Nat
  /-- Interrupt cause of the DMA channel, as read by `Cy_DMA_Channel_GetStatus`. -/
  dmaStatus : Nat
  /-- Whether the DMA channel interrupt is pending. -/
  dmaIntrPending : Bool
  /-- FIFO interrupt status bits, as read by `Cy_SAR_GetFifoInterruptStatus`. -/
  sarFifoIntr : Nat
  /-- What `main` has printed. -/
  uart : List Out
  /-- Hardware-writing driver calls made so far. -/
  pdlCalls : List PdlCall
  /-- Program point of the control loop. -/
  pc : Pc
  deriving DecidableEq

/-- Number of `Cy_DMA_Channel_ClearInterrupt` calls in a call log. -/
def dmaClears (calls : List PdlCall) : Nat := calls.count PdlCall.dmaClearInterrupt

/-! ## Interrupt handlers -/

/-- `void dma_interrupt(void)`. Every `Cy_DMA_Channel_GetStatus` call reads
`dmaStatus`; the assignment to the `uint8_t` flag keeps the low 8 bits. -/
def dma_interrupt (P : Pdl) (s : State) : State :=
  let s := { s with dmaIntrTriggered := true }
  let s :=
    if P.CY_DMA_INTR_CAUSE_COMPLETION = s.dmaStatus then
      { s with adc_dma_done := 1 }
    else if P.CY_DMA_INTR_CAUSE_COMPLETION ≠ s.dmaStatus ∧
        P.CY_DMA_INTR_CAUSE_CURR_PTR_NULL ≠ s.dmaStatus then
      { s with adc_dma_error := s.dmaStatus % 256 }
    else s
  { s with dmaIntrPending := false, pdlCalls := s.pdlCalls ++ [PdlCall.dmaClearInterrupt] }

/-- The mask `CY_SAR_INTR_FIFO_LEVEL | CY_SAR_INTR_FIFO_UNDERFLOW |
CY_SAR_INTR_FIFO_OVERFLOW` passed to `Cy_SAR_ClearFifoInterrupt`. -/
def fifoClearMask (P : Pdl) : Nat :=
  P.CY_SAR_INTR_FIFO_LEVEL ||| P.CY_SAR_INTR_FIFO_UNDERFLOW ||| P.CY_SAR_INTR_FIFO_OVERFLOW

/-- `void fifo_interrupt(void)`. Clearing the interrupt removes the bits of the
mask from the status register. -/
def fifo_interrupt (P : Pdl) (s : State) : State :=
  let s :=
    if s.sarFifoIntr &&& P.CY_SAR_INTR_FIFO_LEVEL ≠ 0 then
      { s with fifoIntrTriggered := true }
    else s
  { s with
    sarFifoIntr := s.sarFifoIntr ^^^ (s.sarFifoIntr &&& fifoClearMask P)
    pdlCalls := s.pdlCalls ++ [PdlCall.sarClearFifoInterrupt (fifoClearMask P)] }

/-! ## `main` -/

/-- The part of `dma_init` that acts on the pipeline:
`Cy_DMA_Descriptor_SetDstAddress(&descriptor, sample_buffer)`. -/
def dma_init (s : State) : State :=
  { s with dstAddress := 0, pdlCalls := s.pdlCalls ++ [PdlCall.dmaSetDstAddress 0] }

/-- The state when `main` is entered: globals hold their static initialisers,
nothing has been printed, no interrupt is pending. The destination of the DMA
descriptor is `dst0`, whatever was there before: `main.c` gives it no initial
value and sets it only in `dma_init`. -/
def powerOn (cfg : Config) (dst0 : Nat) : State :=
  { fifoIntrTriggered := false
    dmaIntrTriggered := false
    adc_dma_error := 0
    adc_dma_done := 0
    sample_buffer := List.replicate cfg.MAX_BUFFER_LENGTH 0
    dma_count := 0
    average := 0
    dstAddress := dst0
    dmaStatus := 0
    dmaIntrPending := false
    sarFifoIntr := 0
    uart := []
    pdlCalls := []
    pc := Pc.sleep }

/-- What `main` prints before it initialises the analog blocks. -/
def banner : List Out :=
  [ Out.text "\x1b[2J\x1b[;H",
    Out.text "-----------------------------------------------------------\r\n",
    Out.text "PSoC 6 MCU: Low Power Analog Front End\r\n",
    Out.text "-----------------------------------------------------------\r\n\n",
    Out.text "Provide input voltage at pin P9.0. \r\n",
    Out.text "Current taken by the device can be measured from J13 header\r\n\n" ]

/-- The prologue of `main`, up to the head of the `for (;;)` loop: the locals
are initialised, the banner is printed and `analog_init` runs `dma_init`. -/
def main_start (cfg : Config) (dst0 : Nat) : State :=
  let s := powerOn cfg dst0
  let s := { s with dma_count := 0, average := 0 }
  let s := { s with uart := s.uart ++ banner }
  let s := dma_init s
  { s with pc := Pc.sleep }

/-- The `else` branch of `if(adc_dma_error)` in `main`: count the block,
average and report on the last block of a window, then move the DMA
destination. `none` when `calculate_avg` does not return. -/
def main_success (cfg : Config) (P : Pdl) (s : State) : Option State :=
  let s := { s with dma_count := (s.dma_count + 1) % 256 }
  let r : Option State :=
    if s.dma_count = cfg.WINDOW_BLOCKS then
      match calculate_avg cfg P.Cy_SAR_CountsTo_mVolts s.sample_buffer with
      | none => none
      | some v =>
        let s := { s with average := toInt16 (v : Int) }
        let s := { s with uart := s.uart ++ [Out.average cfg.MAX_BUFFER_LENGTH s.average] }
        some { s with dma_count := 0 }
    else some s
  match r with
  | none => none
  | some s =>
    let offset := cfg.SAMPLES_PER_FIFO_LEVEL_INTR * s.dma_count
    some { s with dstAddress := offset
                  pdlCalls := s.pdlCalls ++ [PdlCall.dmaSetDstAddress offset] }

/-- The statements of `main` that follow the busy-wait: clear the DMA flag,
then report an error or take the success branch. -/
def main_process (cfg : Config) (P : Pdl) (s : State) : Option State :=
  let s := { s with dmaIntrTriggered := false }
  if s.adc_dma_error ≠ 0 then
    some { s with uart := s.uart ++ [Out.dmaError s.adc_dma_error], pc := Pc.sleep }
  else
    match main_success cfg P s with
    | none => none
    | some s => some { s with pc := Pc.sleep }

/-- One atomic step of the control loop of `main`.

At `Pc.sleep` the processor has woken from deep sleep and tests
`fifoIntrTriggered`: when set, the flag is cleared and the loop enters the
busy-wait, otherwise it goes back to sleep. At `Pc.waitDma` the loop tests
`dmaIntrTriggered`: when clear it keeps spinning, when set the rest of the loop
body runs. -/
def main_step (cfg : Config) (P : Pdl) (s : State) : Option State :=
  match s.pc with
  | Pc.sleep =>
    if s.fifoIntrTriggered then
      some { s with fifoIntrTriggered := false, pc := Pc.waitDma }
    else some s
  | Pc.waitDma =>
    if s.dmaIntrTriggered then main_process cfg P s
    else some s

/-! ## Interleaving of the control loop with interrupts and hardware -/

/-- What the hardware does between two steps of the program: it sets its
interrupt registers and the DMA engine stores samples into `sample_buffer`. -/
structure Hardware where
  /-- New interrupt cause of the DMA channel. -/
  dmaStatus : Nat
  /-- New pending state of the DMA channel interrupt. -/
  dmaIntrPending : Bool
  /-- New FIFO interrupt status bits. -/
  sarFifoIntr : Nat
  /-- Samples stored from the start of `sample_buffer`, each as a `uint16_t`;
  elements beyond the list keep their value. -/
  samples : List Nat
  deriving DecidableEq

/-- Values for the four variables that only the interrupt handlers write. -/
structure Shared where
  fifoIntrTriggered : Bool
  dmaIntrTriggered : Bool
  adc_dma_error : Nat
  adc_dma_done : Nat
  deriving DecidableEq

/-- Store `new` over the front of `old`, each value as a `uint16_t`, without
changing the length of `old`. -/
def overlay : List Nat → List Nat → List Nat
  | [], _ => []
  | o :: os, [] => o :: os
  | _ :: os, n :: ns => (n % 65536) :: overlay os ns

/-- The hardware acts: registers and buffer contents change, nothing else. -/
def hardware (h : Hardware) (s : State) : State :=
  { s with
    dmaStatus := h.dmaStatus
    dmaIntrPending := h.dmaIntrPending
    sarFifoIntr := h.sarFifoIntr
    sample_buffer := overlay s.sample_buffer h.samples }

/-- The handler-owned variables take arbitrary values (the two error flags are
`uint8_t`): this covers any activity of interrupt handlers, the two of `main.c`
included, as far as these variables go. -/
def interfere (v : Shared) (s : State) : State :=
  { s with
    fifoIntrTriggered := v.fifoIntrTriggered
    dmaIntrTriggered := v.dmaIntrTriggered
    adc_dma_error := v.adc_dma_error % 256
    adc_dma_done := v.adc_dma_done % 256 }

/-- What can happen next: the FIFO handler runs, the DMA handler runs, the
hardware acts, the handler-owned variables change in any way, or the control
loop takes a step. -/
inductive Event where
  | fifoIsr
  | dmaIsr
  | hw (h : Hardware)
  | shared (v : Shared)
  | main
  deriving DecidableEq

/-- Effect of one event. -/
def step (cfg : Config) (P : Pdl) : Event → State → Option State
  | Event.fifoIsr, s => some (fifo_interrupt P s)
  | Event.dmaIsr, s => some (dma_interrupt P s)
  | Event.hw h, s => some (hardware h s)
  | Event.shared v, s => some (interfere v s)
  | Event.main, s => main_step cfg P s

/-- Effect of a sequence of events. -/
def exec (cfg : Config) (P : Pdl) : List Event → State → Option State
  | [], s => some s
  | e :: es, s =>
    match step cfg P e s with
    | none => none
    | some s' => exec cfg P es s'

/-- Whether event `e` in state `s` is a control-loop cycle with outcome
Success: the loop leaves the busy-wait and finds no error recorded. -/
def isSuccessCycle (e : Event) (s : State) : Bool :=
  e = Event.main && s.pc = Pc.waitDma && s.dmaIntrTriggered && s.adc_dma_error = 0

/-- Number of Success cycles in a run of events from state `s`. -/
def successes (cfg : Config) (P : Pdl) : List Event → State → Nat
  | [], _ => 0
  | e :: es, s =>
    match step cfg P e s with
    | none => 0
    | some s' => (if isSuccessCycle e s then 1 else 0) + successes cfg P es s'

/-- The invariant of the control loop in the build configuration: the block
counter is below 5, the DMA destination is 40 elements per counted block, and
the sample buffer holds 200 values of 16 bits. -/
def LoopInv (s : State) : Prop :=
  s.dma_count < 5 ∧ s.dstAddress = 40 * s.dma_count ∧
  s.sample_buffer.length = 200 ∧ ∀ x ∈ s.sample_buffer, x < 65536

/-- The control loop is in its busy-wait on the third block of a window (two
blocks counted, destination at offset 80) and the DMA handler has recorded
error code 3. -/
def errorOnThirdBlock : State :=
  { main_start build 0 with
    pc := Pc.waitDma
    dmaIntrTriggered := true
    adc_dma_error := 3
    dma_count := 2
    dstAddress := 80 }

/-- The run that shows the recorded error is never reset: the hardware raises
the FIFO level interrupt and a DMA interrupt with a destination bus error
(cause 3), both handlers run and the control loop takes its two steps; then
the hardware raises the FIFO level interrupt and a DMA interrupt with the
successful-completion cause (1), both handlers run and the control loop takes
its two steps again. -/
def errorThenCompletion : List Event :=
  [ Event.hw ⟨3, true, 1, []⟩, Event.fifoIsr, Event.dmaIsr, Event.main, Event.main,
    Event.hw ⟨1, true, 1, []⟩, Event.fifoIsr, Event.dmaIsr, Event.main, Event.main ]

/-- A driver interface whose conversion returns -5 millivolts for every
count: a calibration result below zero. -/
def belowZero : Pdl :=
  { psoc6 with Cy_SAR_CountsTo_mVolts := fun _ => -5 }

/-- The control loop is in its busy-wait on the fifth block of a window (four
blocks counted, destination at offset 160), the transfer is done and no error
is recorded. -/
def windowComplete : State :=
  { main_start build 0 with
    pc := Pc.waitDma
    dmaIntrTriggered := true
    dma_count := 4
    dstAddress := 160 }

theorem sum_take_succ_getD (l : List Nat) (j : Nat) :
    (l.take (j + 1)).sum = (l.take j).sum + l.getD j 0 := by
  rw [List.take_succ, List.sum_append]
  cases h : l[j]? <;> simp [h]

theorem sum_le_of_samples (l : List Nat) (hs : ∀ x ∈ l, x < 65536) :
    l.sum ≤ l.length * 65535 := by
  induction l with
  | nil => simp
  | cons a t ih =>
    have ha : a < 65536 := hs a (List.mem_cons_self a t)
    have ht : t.sum ≤ t.length * 65535 := ih (fun x hx => hs x (List.mem_cons_of_mem a hx))
    simp only [List.sum_cons, List.length_cons]
    omega

theorem partial_sum_le (l : List Nat) (hs : ∀ x ∈ l, x < 65536) (j : Nat) :
    (l.take j).sum ≤ j * 65535 := by
  have h1 : (l.take j).sum ≤ (l.take j).length * 65535 :=
    sum_le_of_samples _ (fun x hx => hs x (List.mem_of_mem_take hx))
  have h2 : (l.take j).length ≤ j := by simp [List.length_take]
  calc (l.take j).sum ≤ (l.take j).length * 65535 := h1
    _ ≤ j * 65535 := Nat.mul_le_mul_right _ h2

/-- While the index is at most 65535 and the samples are 16-bit, one loop pass
from the exact state `(j, sum of the first j samples)` gives the exact state
for `j + 1`: neither modulus takes effect. -/
theorem avg_loop_step_exact (l : List Nat) (hs : ∀ x ∈ l, x < 65536) (j : Nat)
    (hj : j + 1 < 65536) :
    avg_loop_step l ⟨j, (l.take j).sum⟩ = ⟨j + 1, (l.take (j + 1)).sum⟩ := by
  have hb : (l.take (j + 1)).sum ≤ (j + 1) * 65535 := partial_sum_le l hs (j + 1)
  have hsum := sum_take_succ_getD l j
  simp only [avg_loop_step, AvgLoop.mk.injEq]
  constructor
  · omega
  · rw [← hsum]
    apply Nat.mod_eq_of_lt
    have : (j + 1) * 65535 ≤ 65535 * 65535 := Nat.mul_le_mul_right _ (by omega)
    omega

theorem avg_loop_iterate_exact (l : List Nat) (hs : ∀ x ∈ l, x < 65536) (j : Nat)
    (hj : j < 65536) :
    (avg_loop_step l)^[j] ⟨0, 0⟩ = ⟨j, (l.take j).sum⟩ := by
  induction j with
  | zero => simp
  | succ n ih =>
    rw [Function.iterate_succ_apply', ih (by omega)]
    exact avg_loop_step_exact l hs n hj

/-- From the exact state at index `j`, the loop exits with the exact sum of the
first `len` samples, given one loop test more than the passes that remain. -/
theorem avg_loop_from (len : Nat) (l : List Nat) (hlen : len < 65536)
    (hs : ∀ x ∈ l, x < 65536) :
    ∀ (k j fuel : Nat), j + k = len → k < fuel →
      avg_loop len l fuel ⟨j, (l.take j).sum⟩ = some (l.take len).sum := by
  intro k
  induction k with
  | zero =>
    intro j fuel hjk hf
    obtain ⟨f, rfl⟩ : ∃ f, fuel = f + 1 := ⟨fuel - 1, by omega⟩
    have : j = len := by omega
    subst this
    simp [avg_loop]
  | succ k ih =>
    intro j fuel hjk hf
    obtain ⟨f, rfl⟩ : ∃ f, fuel = f + 1 := ⟨fuel - 1, by omega⟩
    have hlt : j < len := by omega
    simp only [avg_loop, hlt, if_true]
    rw [avg_loop_step_exact l hs j (by omega)]
    exact ih (j + 1) f (by omega) (by omega)

/-- The loop of `calculate_avg` exits with the exact sum when the buffer length
fits the 16-bit index. -/
theorem avg_loop_exact (len : Nat) (l : List Nat) (hlen : len < 65536)
    (hs : ∀ x ∈ l, x < 65536) (hl : l.length = len) :
    avg_loop len l avgFuel ⟨0, 0⟩ = some l.sum := by
  have h := avg_loop_from len l hlen hs len 0 avgFuel (by omega) (by unfold avgFuel; omega)
  simp only [List.take_zero, List.sum_nil] at h
  rw [h, ← hl, List.take_length]

/-- With a buffer length of 65536 or more the 16-bit index never reaches it:
no number of loop tests lets the loop exit. -/
theorem avg_loop_diverges (len : Nat) (l : List Nat) (hlen : 65536 ≤ len) :
    ∀ (fuel : Nat) (st : AvgLoop), st.i < 65536 → avg_loop len l fuel st = none := by
  intro fuel
  induction fuel with
  | zero => intro st _; rfl
  | succ f ih =>
    intro st hi
    have hlt : st.i < len := by omega
    simp only [avg_loop, hlt, if_true]
    apply ih
    simp only [avg_loop_step]
    omega

/-- The three conversions applied to the result of the counts-to-millivolt
function keep its low 16 bits. -/
theorem narrow_chain (x : Int) : toUInt16 (toUInt32 (toInt16 x)) = (x % 65536).toNat := by
  unfold toUInt16 toUInt32 toInt16
  omega

/-- A count of at most 32767 is unchanged by the conversion to `int16_t`. -/
theorem toInt16_of_le (m : Nat) (hm : m ≤ 32767) : toInt16 (m : Int) = (m : Int) := by
  unfold toInt16
  omega

/-- What `calculate_avg` returns for a well-formed buffer: the low 16 bits of
the conversion function applied to the truncated mean, the mean being passed
as an `int16_t`. -/
theorem calculate_avg_eq (cfg : Config) (f : Int → Int) (buf : List Nat)
    (hpos : 0 < cfg.MAX_BUFFER_LENGTH) (hlt : cfg.MAX_BUFFER_LENGTH < 65536)
    (hlen : buf.length = cfg.MAX_BUFFER_LENGTH) (hs : ∀ x ∈ buf, x < 65536) :
    calculate_avg cfg f buf
      = some ((f (toInt16 ((buf.sum / cfg.MAX_BUFFER_LENGTH : Nat) : Int)) % 65536).toNat) := by
  unfold calculate_avg
  rw [avg_loop_exact _ buf hlt hs hlen]
  have h0 : cfg.MAX_BUFFER_LENGTH ≠ 0 := by omega
  simp only [h0, if_false, narrow_chain]

/-- With a buffer length below 65536 the loop exits whatever the buffer
holds. -/
theorem avg_loop_terminates (len : Nat) (l : List Nat) (hlen : len < 65536) :
    ∀ (k j fuel acc : Nat), j + k = len → k < fuel →
      ∃ r, avg_loop len l fuel ⟨j, acc⟩ = some r := by
  intro k
  induction k with
  | zero =>
    intro j fuel acc hjk hf
    obtain ⟨f, rfl⟩ : ∃ f, fuel = f + 1 := ⟨fuel - 1, by omega⟩
    have : ¬ j < len := by omega
    exact ⟨acc, by simp [avg_loop, this]⟩
  | succ k ih =>
    intro j fuel acc hjk hf
    obtain ⟨f, rfl⟩ : ∃ f, fuel = f + 1 := ⟨fuel - 1, by omega⟩
    have hlt : j < len := by omega
    have hmod : (j + 1) % 65536 = j + 1 := Nat.mod_eq_of_lt (by omega)
    simp only [avg_loop, hlt, if_true, avg_loop_step, hmod]
    exact ih (j + 1) f _ (by omega) (by omega)

/-- In a configuration whose buffer length lies between 1 and 65535,
`calculate_avg` returns, whatever the buffer holds. -/
theorem calculate_avg_total (cfg : Config) (f : Int → Int) (buf : List Nat)
    (hpos : 0 < cfg.MAX_BUFFER_LENGTH) (hlt : cfg.MAX_BUFFER_LENGTH < 65536) :
    ∃ v, calculate_avg cfg f buf = some v := by
  obtain ⟨r, hr⟩ := avg_loop_terminates cfg.MAX_BUFFER_LENGTH buf hlt
    cfg.MAX_BUFFER_LENGTH 0 avgFuel 0 (by omega) (by unfold avgFuel; omega)
  have h0 : cfg.MAX_BUFFER_LENGTH ≠ 0 := by omega
  unfold calculate_avg
  rw [hr]
  simp [h0]

/-! ## Claims about `calculate_avg` -/

/-- C1 (amended): for every configuration whose buffer capacity lies between 1
and 65535 (200 in the build), every buffer of that many unsigned 16-bit samples
and every calibration function `f`, `calculate_avg` returns the low 16 bits of
`f` applied to the integer-truncated mean `sum / capacity`, the mean being
passed to `f` as a signed 16-bit count; when the mean is at most 32767 and
`f mean` lies between 0 and 65535 the returned value is `f mean` itself. -/
theorem calculate_avg_mean (cfg : Config) (f : Int → Int) (buf : List Nat)
    (hpos : 0 < cfg.MAX_BUFFER_LENGTH) (hlt : cfg.MAX_BUFFER_LENGTH < 65536)
    (hlen : buf.length = cfg.MAX_BUFFER_LENGTH) (hs : ∀ x ∈ buf, x < 65536) :
    calculate_avg cfg f buf
        = some ((f (toInt16 ((buf.sum / cfg.MAX_BUFFER_LENGTH : Nat) : Int)) % 65536).toNat)
    ∧ (buf.sum / cfg.MAX_BUFFER_LENGTH ≤ 32767 →
        0 ≤ f ((buf.sum / cfg.MAX_BUFFER_LENGTH : Nat) : Int) →
        f ((buf.sum / cfg.MAX_BUFFER_LENGTH : Nat) : Int) ≤ 65535 →
        calculate_avg cfg f buf
          = some (f ((buf.sum / cfg.MAX_BUFFER_LENGTH : Nat) : Int)).toNat) := by
  have h := calculate_avg_eq cfg f buf hpos hlt hlen hs
  refine ⟨h, ?_⟩
  intro hm h0 h1
  rw [h, toInt16_of_le _ hm]
  congr 1
  omega

/-- Witness for C1: the scenario of the specification, 2 samples per block,
2 blocks per window, buffer `[10, 20, 30, 40]`, identity calibration: the
reported average is 25. -/
theorem calculate_avg_mean_witness :
    calculate_avg ⟨2, 2⟩ id [10, 20, 30, 40] = some 25 := by
  have h := (calculate_avg_mean ⟨2, 2⟩ id [10, 20, 30, 40] (by decide) (by decide) (by decide)
    (by decide)).2 (by decide) (by decide) (by decide)
  rw [h]
  decide

/-- Counterexample for C1 as stated: with a calibration function that returns
-1, `calculate_avg` returns 65535 on the all-zero buffer of 200 samples; and on
200 samples of value 40000 the mean 40000 reaches the calibration function as
the signed count -25536, so that a function clamping negative counts to 0
yields 0 where it maps the mean itself to 40000. -/
theorem calculate_avg_mean_counterexample :
    calculate_avg build (fun _ => -1) (List.replicate 200 0) = some 65535
    ∧ (fun _ : Int => (-1 : Int)) (((List.replicate 200 0).sum / 200 : Nat) : Int) = -1
    ∧ calculate_avg build (fun x => max x 0) (List.replicate 200 40000) = some 0
    ∧ (fun x : Int => max x 0) (((List.replicate 200 40000).sum / 200 : Nat) : Int) = 40000 := by
  have hN : build.MAX_BUFFER_LENGTH = 200 := by decide
  refine ⟨?_, ?_, ?_, ?_⟩
  · rw [calculate_avg_eq build _ (List.replicate 200 0) (by decide) (by decide)
      (by rw [hN]; exact List.length_replicate _ _)
      (fun x hx => by rw [List.eq_of_mem_replicate hx]; decide)]
    rfl
  · rfl
  · rw [calculate_avg_eq build _ (List.replicate 200 40000) (by decide) (by decide)
      (by rw [hN]; exact List.length_replicate _ _)
      (fun x hx => by rw [List.eq_of_mem_replicate hx]; decide)]
    rw [List.sum_replicate, hN]
    decide
  · rw [List.sum_replicate]
    decide

/-- C7: for every buffer of 200 unsigned 16-bit samples the 32-bit accumulator
of `calculate_avg` never wraps. After `j ≤ 200` passes the loop variables,
computed with the 16-bit and 32-bit moduli, are exactly `j` and the sum of the
first `j` samples; that partial sum is at most `200 * 65535 < 2^32` and the
index is below `2^16`; the loop continues from that state, and it exits with
the exact sum of the samples. -/
theorem calculate_avg_accumulator_exact (buf : List Nat) (hlen : buf.length = 200)
    (hs : ∀ x ∈ buf, x < 65536) :
    (∀ j, j ≤ 200 →
        (avg_loop_step buf)^[j] ⟨0, 0⟩ = ⟨j, (buf.take j).sum⟩
        ∧ (buf.take j).sum ≤ 200 * 65535
        ∧ j < 2 ^ 16
        ∧ avg_loop build.MAX_BUFFER_LENGTH buf avgFuel ⟨0, 0⟩
            = avg_loop build.MAX_BUFFER_LENGTH buf (avgFuel - j)
                ((avg_loop_step buf)^[j] ⟨0, 0⟩))
    ∧ 200 * 65535 < 2 ^ 32
    ∧ avg_loop build.MAX_BUFFER_LENGTH buf avgFuel ⟨0, 0⟩ = some buf.sum := by
  have hN : build.MAX_BUFFER_LENGTH = 200 := by decide
  have hfin : avg_loop build.MAX_BUFFER_LENGTH buf avgFuel ⟨0, 0⟩ = some buf.sum :=
    avg_loop_exact _ buf (by decide) hs (by rw [hN]; exact hlen)
  refine ⟨?_, by norm_num, hfin⟩
  intro j hj
  have hit := avg_loop_iterate_exact buf hs j (by omega)
  refine ⟨hit, ?_, by omega, ?_⟩
  · calc (buf.take j).sum ≤ j * 65535 := partial_sum_le buf hs j
      _ ≤ 200 * 65535 := Nat.mul_le_mul_right _ hj
  · rw [hfin, hit, hN]
    have h := avg_loop_from 200 buf (by decide) hs (200 - j) j (avgFuel - j) (by omega)
      (by unfold avgFuel; omega)
    rw [h, ← hlen, List.take_length]

/-- Witness for C7: the buffer of 200 samples of the largest 16-bit value. -/
theorem calculate_avg_accumulator_exact_witness :
    avg_loop build.MAX_BUFFER_LENGTH (List.replicate 200 65535) avgFuel ⟨0, 0⟩
      = some (List.replicate 200 65535).sum :=
  (calculate_avg_accumulator_exact (List.replicate 200 65535) (List.length_replicate _ _)
    (fun x hx => by rw [List.eq_of_mem_replicate hx]; decide)).2.2

/-! ## The interrupt handlers -/

/-- What `fifo_interrupt` changes and what it leaves alone. -/
theorem fifo_interrupt_fields (P : Pdl) (s : State) :
    (fifo_interrupt P s).fifoIntrTriggered
        = (if s.sarFifoIntr &&& P.CY_SAR_INTR_FIFO_LEVEL ≠ 0 then true else s.fifoIntrTriggered)
    ∧ (fifo_interrupt P s).dmaIntrTriggered = s.dmaIntrTriggered
    ∧ (fifo_interrupt P s).adc_dma_error = s.adc_dma_error
    ∧ (fifo_interrupt P s).adc_dma_done = s.adc_dma_done
    ∧ (fifo_interrupt P s).dma_count = s.dma_count
    ∧ (fifo_interrupt P s).dstAddress = s.dstAddress
    ∧ (fifo_interrupt P s).sample_buffer = s.sample_buffer
    ∧ (fifo_interrupt P s).average = s.average
    ∧ (fifo_interrupt P s).uart = s.uart
    ∧ (fifo_interrupt P s).dmaStatus = s.dmaStatus
    ∧ (fifo_interrupt P s).dmaIntrPending = s.dmaIntrPending
    ∧ (fifo_interrupt P s).pc = s.pc := by
  simp only [fifo_interrupt]
  split_ifs <;> simp

/-- The DMA handler always sets the transfer-done flag. -/
theorem dma_interrupt_flag (P : Pdl) (s : State) :
    (dma_interrupt P s).dmaIntrTriggered = true := by
  simp only [dma_interrupt]
  split_ifs <;> simp

/-- C8 (amended): for every state and every FIFO interrupt status,
`fifo_interrupt` sets the data-ready flag when the FIFO-level bit is set in the
status and leaves the flag as it was otherwise; in both cases the
transfer-done flag, the recorded outcome (`adc_dma_error`, `adc_dma_done`),
the block counter, the DMA destination, the sample buffer, the average, the
output, the DMA registers and the program point are unchanged. -/
theorem fifo_interrupt_frame (P : Pdl) (s : State) :
    (fifo_interrupt P s).fifoIntrTriggered
        = (if s.sarFifoIntr &&& P.CY_SAR_INTR_FIFO_LEVEL ≠ 0 then true else s.fifoIntrTriggered)
    ∧ (fifo_interrupt P s).dmaIntrTriggered = s.dmaIntrTriggered
    ∧ (fifo_interrupt P s).adc_dma_error = s.adc_dma_error
    ∧ (fifo_interrupt P s).adc_dma_done = s.adc_dma_done
    ∧ (fifo_interrupt P s).dma_count = s.dma_count
    ∧ (fifo_interrupt P s).dstAddress = s.dstAddress
    ∧ (fifo_interrupt P s).sample_buffer = s.sample_buffer
    ∧ (fifo_interrupt P s).average = s.average
    ∧ (fifo_interrupt P s).uart = s.uart
    ∧ (fifo_interrupt P s).dmaStatus = s.dmaStatus
    ∧ (fifo_interrupt P s).dmaIntrPending = s.dmaIntrPending
    ∧ (fifo_interrupt P s).pc = s.pc :=
  fifo_interrupt_fields P s

/-- Counterexample for C8 as stated: entered with only the FIFO-overflow bit
set in the status and the data-ready flag clear, `fifo_interrupt` returns with
the flag still clear. -/
theorem fifo_interrupt_frame_counterexample :
    (fifo_interrupt psoc6 { powerOn build 0 with sarFifoIntr := 2 }).fifoIntrTriggered = false := by
  decide

/-- C9: for every state, whatever the completion cause in the DMA status,
`dma_interrupt` sets the transfer-done flag and makes exactly one
`Cy_DMA_Channel_ClearInterrupt` call, as its last action, which leaves the DMA
interrupt not pending. -/
theorem dma_interrupt_latch_and_clear (P : Pdl) (s : State) :
    (dma_interrupt P s).dmaIntrTriggered = true
    ∧ (dma_interrupt P s).dmaIntrPending = false
    ∧ (dma_interrupt P s).pdlCalls = s.pdlCalls ++ [PdlCall.dmaClearInterrupt]
    ∧ dmaClears (dma_interrupt P s).pdlCalls = dmaClears s.pdlCalls + 1 := by
  simp only [dma_interrupt, dmaClears]
  split_ifs <;> simp

/-- What the DMA handler does to the recorded outcome, by cause. -/
theorem dma_interrupt_error (P : Pdl) (s : State) :
    (dma_interrupt P s).adc_dma_error
      = (if s.dmaStatus = P.CY_DMA_INTR_CAUSE_COMPLETION
            ∨ s.dmaStatus = P.CY_DMA_INTR_CAUSE_CURR_PTR_NULL
          then s.adc_dma_error else s.dmaStatus % 256) := by
  unfold dma_interrupt
  by_cases h1 : P.CY_DMA_INTR_CAUSE_COMPLETION = s.dmaStatus
  · simp [h1]
  · by_cases h2 : P.CY_DMA_INTR_CAUSE_CURR_PTR_NULL = s.dmaStatus
    · simp [h1, h2]
    · have h1' : ¬ s.dmaStatus = P.CY_DMA_INTR_CAUSE_COMPLETION := fun h => h1 h.symm
      have h2' : ¬ s.dmaStatus = P.CY_DMA_INTR_CAUSE_CURR_PTR_NULL := fun h => h2 h.symm
      simp [h1, h2, h1', h2']

/-- The DMA handler leaves the locals of `main`, the destination, the output
and the program point alone. -/
theorem dma_interrupt_frame (P : Pdl) (s : State) :
    (dma_interrupt P s).fifoIntrTriggered = s.fifoIntrTriggered
    ∧ (dma_interrupt P s).dma_count = s.dma_count
    ∧ (dma_interrupt P s).dstAddress = s.dstAddress
    ∧ (dma_interrupt P s).sample_buffer = s.sample_buffer
    ∧ (dma_interrupt P s).average = s.average
    ∧ (dma_interrupt P s).uart = s.uart
    ∧ (dma_interrupt P s).pc = s.pc := by
  simp only [dma_interrupt]
  split_ifs <;> simp

/-- The error branch of the control loop: leaving the busy-wait with an error
recorded, the loop prints the error line and changes neither counter nor
destination nor average, and makes no driver call. -/
theorem main_step_error (cfg : Config) (P : Pdl) (s : State) (hpc : s.pc = Pc.waitDma)
    (hdma : s.dmaIntrTriggered = true) (herr : s.adc_dma_error ≠ 0) :
    main_step cfg P s
      = some { s with dmaIntrTriggered := false
                      uart := s.uart ++ [Out.dmaError s.adc_dma_error]
                      pc := Pc.sleep } := by
  simp [main_step, hpc, hdma, main_process, herr]

theorem avgCount_append_dmaError (u : List Out) (c : Nat) :
    avgCount (u ++ [Out.dmaError c]) = avgCount u := by
  simp [avgCount, List.countP_append, List.countP_cons, Out.isAverage]

theorem avgCount_append_average (u : List Out) (n : Nat) (v : Int) :
    avgCount (u ++ [Out.average n v]) = avgCount u + 1 := by
  simp [avgCount, List.countP_append, List.countP_cons, Out.isAverage]

/-- C6 (amended): for every completion cause in the DMA status other than the
successful-completion cause and the null-current-pointer cause,
`dma_interrupt` stores the low 8 bits of the cause in `adc_dma_error`; when
that code is non-zero, the control-loop cycle that consumes it prints
`DMA ERROR <code>` and skips the cycle (counter, destination and average
unchanged, no average printed). For the successful-completion cause and for the
null-current-pointer cause the handler leaves `adc_dma_error` as it was. -/
theorem dma_interrupt_outcome (cfg : Config) (P : Pdl) (s : State) :
    (s.dmaStatus ≠ P.CY_DMA_INTR_CAUSE_COMPLETION →
      s.dmaStatus ≠ P.CY_DMA_INTR_CAUSE_CURR_PTR_NULL →
        (dma_interrupt P s).adc_dma_error = s.dmaStatus % 256
        ∧ (s.dmaStatus % 256 ≠ 0 → s.pc = Pc.waitDma →
            ∃ s', main_step cfg P (dma_interrupt P s) = some s'
              ∧ s'.uart = s.uart ++ [Out.dmaError (s.dmaStatus % 256)]
              ∧ avgCount s'.uart = avgCount s.uart
              ∧ s'.dma_count = s.dma_count
              ∧ s'.dstAddress = s.dstAddress
              ∧ s'.average = s.average))
    ∧ (s.dmaStatus = P.CY_DMA_INTR_CAUSE_COMPLETION
          ∨ s.dmaStatus = P.CY_DMA_INTR_CAUSE_CURR_PTR_NULL →
        (dma_interrupt P s).adc_dma_error = s.adc_dma_error) := by
  have herr := dma_interrupt_error P s
  have hfr := dma_interrupt_frame P s
  have hl := dma_interrupt_flag P s
  refine ⟨?_, ?_⟩
  · intro h1 h2
    have he : (dma_interrupt P s).adc_dma_error = s.dmaStatus % 256 := by
      rw [herr]; simp [h1, h2]
    refine ⟨he, ?_⟩
    intro hcode hpc
    have hstep := main_step_error cfg P (dma_interrupt P s) (by rw [hfr.2.2.2.2.2.2]; exact hpc)
      hl (by rw [he]; exact hcode)
    refine ⟨_, hstep, ?_, ?_, ?_, ?_, ?_⟩
    · simp [he, hfr.2.2.2.2.2.1]
    · simp [avgCount_append_dmaError, hfr.2.2.2.2.2.1]
    · simp [hfr.2.1]
    · simp [hfr.2.2.1]
    · simp [hfr.2.2.2.2.1]
  · intro h
    rw [herr]
    simp [h]

/-- Witness for C6: a destination bus error (cause 3) arrives while the control
loop is in its busy-wait. -/
theorem dma_interrupt_outcome_witness :
    (dma_interrupt psoc6 { powerOn build 0 with dmaStatus := 3, pc := Pc.waitDma }).adc_dma_error = 3 :=
  ((dma_interrupt_outcome build psoc6 { powerOn build 0 with dmaStatus := 3, pc := Pc.waitDma }).1
    (by decide) (by decide)).1

/-- Counterexample for C6 as stated: with the null-current-pointer cause (6),
which is not the successful-completion cause, `dma_interrupt` records no error
(`adc_dma_error` stays 0) and the control-loop cycle that follows takes the
Success branch: the block counter goes from 0 to 1 and nothing is printed. -/
theorem dma_interrupt_outcome_counterexample :
    (dma_interrupt psoc6 { powerOn build 0 with dmaStatus := 6, pc := Pc.waitDma }).adc_dma_error = 0
    ∧ (main_step build psoc6
        (dma_interrupt psoc6 { powerOn build 0 with dmaStatus := 6, pc := Pc.waitDma })).map
          (fun s => (s.dma_count, s.dstAddress, s.uart)) = some (1, 40, []) := by
  constructor
  · decide
  · decide

/-! ## Claims about one cycle of the control loop -/

/-- The whole cycle, from the head of the loop: woken with both flags set and
an error recorded, the control loop clears the data-ready flag, passes the
busy-wait and reports the error, changing neither counter nor destination. -/
theorem error_cycle_from_sleep (cfg : Config) (P : Pdl) (s : State)
    (hpc : s.pc = Pc.sleep) (hfifo : s.fifoIntrTriggered = true)
    (hdma : s.dmaIntrTriggered = true) (hne : s.adc_dma_error ≠ 0) :
    exec cfg P [Event.main, Event.main] s
      = some { s with fifoIntrTriggered := false
                      dmaIntrTriggered := false
                      uart := s.uart ++ [Out.dmaError s.adc_dma_error]
                      pc := Pc.sleep } := by
  have hA : main_step cfg P s = some { s with fifoIntrTriggered := false, pc := Pc.waitDma } := by
    simp [main_step, hpc, hfifo]
  have hB := main_step_error cfg P { s with fifoIntrTriggered := false, pc := Pc.waitDma }
    rfl hdma hne
  simp only [exec, step, hA, hB]

/-- C4: for every state in which the control loop leaves its busy-wait with a
transfer error recorded (`adc_dma_error = code`, non-zero), the cycle prints
the line `DMA ERROR <code>`, leaves the block counter, the DMA destination and
the average unchanged, prints no window average, makes no driver call and
returns to the head of the loop. The same holds for the whole cycle seen from
the head of the loop: woken with both flags set and `adc_dma_error = code`,
the two steps of the control loop print the line and change neither counter
nor destination nor average. -/
theorem error_cycle (cfg : Config) (P : Pdl) (s : State) (code : Nat)
    (hpc : s.pc = Pc.waitDma) (hdma : s.dmaIntrTriggered = true)
    (hcode : s.adc_dma_error = code) (hne : code ≠ 0) :
    (∃ s', main_step cfg P s = some s'
      ∧ s'.uart = s.uart ++ [Out.dmaError code]
      ∧ (Out.dmaError code).render = "DMA ERROR " ++ toString code ++ "\r\n"
      ∧ s'.dma_count = s.dma_count
      ∧ s'.dstAddress = s.dstAddress
      ∧ s'.average = s.average
      ∧ avgCount s'.uart = avgCount s.uart
      ∧ s'.pdlCalls = s.pdlCalls
      ∧ s'.adc_dma_error = code
      ∧ s'.pc = Pc.sleep)
    ∧ ∀ s0 : State, s0.pc = Pc.sleep → s0.fifoIntrTriggered = true →
        s0.dmaIntrTriggered = true → s0.adc_dma_error = code →
        ∃ s', exec cfg P [Event.main, Event.main] s0 = some s'
          ∧ s'.uart = s0.uart ++ [Out.dmaError code]
          ∧ s'.dma_count = s0.dma_count
          ∧ s'.dstAddress = s0.dstAddress
          ∧ s'.average = s0.average
          ∧ avgCount s'.uart = avgCount s0.uart
          ∧ s'.pdlCalls = s0.pdlCalls
          ∧ s'.fifoIntrTriggered = false
          ∧ s'.pc = Pc.sleep := by
  subst hcode
  refine ⟨⟨_, main_step_error cfg P s hpc hdma hne, ?_⟩, ?_⟩
  · simp [avgCount_append_dmaError, Out.render]
  · intro s0 h1 h2 h3 h4
    refine ⟨_, error_cycle_from_sleep cfg P s0 h1 h2 h3 (by rw [h4]; exact hne), ?_⟩
    simp [avgCount_append_dmaError, h4]

/-- Witness for C4: the error falls on the third block of a window of 5; the
counter is 2 before and after, the destination stays at offset 80. -/
theorem error_cycle_witness :
    (∃ s', main_step build psoc6 errorOnThirdBlock = some s'
      ∧ s'.uart = errorOnThirdBlock.uart ++ [Out.dmaError 3]
      ∧ (Out.dmaError 3).render = "DMA ERROR " ++ toString 3 ++ "\r\n"
      ∧ s'.dma_count = 2
      ∧ s'.dstAddress = 80
      ∧ s'.average = errorOnThirdBlock.average
      ∧ avgCount s'.uart = avgCount errorOnThirdBlock.uart
      ∧ s'.pdlCalls = errorOnThirdBlock.pdlCalls
      ∧ s'.adc_dma_error = 3
      ∧ s'.pc = Pc.sleep) :=
  (error_cycle build psoc6 errorOnThirdBlock 3 rfl rfl rfl (by decide)).1

/-! ## The success branch and the loop invariant -/

/-- A Success cycle in the build configuration that does not complete a
window. -/
theorem main_step_count (P : Pdl) (s : State) (hpc : s.pc = Pc.waitDma)
    (hdma : s.dmaIntrTriggered = true) (herr : s.adc_dma_error = 0)
    (h : s.dma_count + 1 < 5) :
    main_step build P s
      = some { s with dmaIntrTriggered := false
                      dma_count := s.dma_count + 1
                      dstAddress := 40 * (s.dma_count + 1)
                      pdlCalls := s.pdlCalls ++ [PdlCall.dmaSetDstAddress (40 * (s.dma_count + 1))]
                      pc := Pc.sleep } := by
  have hmod : (s.dma_count + 1) % 256 = s.dma_count + 1 := Nat.mod_eq_of_lt (by omega)
  have hne : ¬ s.dma_count + 1 = 5 := by omega
  have h1 : build.WINDOW_BLOCKS = 5 := rfl
  have h2 : build.SAMPLES_PER_FIFO_LEVEL_INTR = 40 := rfl
  simp [main_step, main_process, main_success, hpc, hdma, herr, h1, h2, hmod, hne]

/-- A Success cycle in the build configuration that completes a window. -/
theorem main_step_window (P : Pdl) (s : State) (hpc : s.pc = Pc.waitDma)
    (hdma : s.dmaIntrTriggered = true) (herr : s.adc_dma_error = 0)
    (h : s.dma_count = 4) :
    ∃ v, calculate_avg build P.Cy_SAR_CountsTo_mVolts s.sample_buffer = some v
      ∧ main_step build P s
        = some { s with dmaIntrTriggered := false
                        dma_count := 0
                        average := toInt16 (v : Int)
                        uart := s.uart ++ [Out.average 200 (toInt16 (v : Int))]
                        dstAddress := 0
                        pdlCalls := s.pdlCalls ++ [PdlCall.dmaSetDstAddress 0]
                        pc := Pc.sleep } := by
  obtain ⟨v, hv⟩ := calculate_avg_total build P.Cy_SAR_CountsTo_mVolts s.sample_buffer
    (by decide) (by decide)
  refine ⟨v, hv, ?_⟩
  have h1 : build.WINDOW_BLOCKS = 5 := rfl
  have h2 : build.SAMPLES_PER_FIFO_LEVEL_INTR = 40 := rfl
  have h3 : build.MAX_BUFFER_LENGTH = 200 := rfl
  simp [main_step, main_process, main_success, hpc, hdma, herr, h, hv, h1, h2, h3]

theorem overlay_length : ∀ (o n : List Nat), (overlay o n).length = o.length
  | [], _ => by simp [overlay]
  | _ :: _, [] => by simp [overlay]
  | _ :: os, _ :: ns => by simp [overlay, overlay_length os ns]

theorem overlay_samples : ∀ (o n : List Nat), (∀ x ∈ o, x < 65536) →
    ∀ x ∈ overlay o n, x < 65536
  | [], _ => by simp [overlay]
  | _ :: _, [] => by simp [overlay]
  | a :: os, b :: ns => by
    intro h x hx
    simp only [overlay, List.mem_cons] at hx
    rcases hx with hx | hx
    · rw [hx]; exact Nat.mod_lt _ (by decide)
    · exact overlay_samples os ns (fun y hy => h y (List.mem_cons_of_mem a hy)) x hx

/-- One event preserves the loop invariant, and moves the block counter, the
destination and the number of printed averages as the outcome of the cycle
prescribes. -/
theorem step_inv (P : Pdl) (e : Event) (s : State) (h : LoopInv s) :
    ∃ s', step build P e s = some s' ∧ LoopInv s'
      ∧ (isSuccessCycle e s = true →
          s'.dma_count = (s.dma_count + 1) % 5
          ∧ avgCount s'.uart = avgCount s.uart + (s.dma_count + 1) / 5
          ∧ (s.dma_count + 1 < 5 → s'.uart = s.uart ∧ s'.average = s.average))
      ∧ (isSuccessCycle e s = false →
          s'.dma_count = s.dma_count ∧ avgCount s'.uart = avgCount s.uart
          ∧ s'.dstAddress = s.dstAddress ∧ s'.average = s.average) := by
  obtain ⟨hc, hd, hl, hr⟩ := h
  cases e with
  | fifoIsr =>
    obtain ⟨-, -, -, -, h5, h6, h7, h8, h9, -, -, -⟩ := fifo_interrupt_fields P s
    refine ⟨_, rfl, ⟨by rw [h5]; exact hc, by rw [h6, h5]; exact hd, by rw [h7]; exact hl,
      by rw [h7]; exact hr⟩, ?_, ?_⟩
    · intro hs; simp [isSuccessCycle] at hs
    · intro _; exact ⟨h5, by rw [h9], h6, h8⟩
  | dmaIsr =>
    obtain ⟨-, h5, h6, h7, h8, h9, -⟩ := dma_interrupt_frame P s
    refine ⟨_, rfl, ⟨by rw [h5]; exact hc, by rw [h6, h5]; exact hd, by rw [h7]; exact hl,
      by rw [h7]; exact hr⟩, ?_, ?_⟩
    · intro hs; simp [isSuccessCycle] at hs
    · intro _; exact ⟨h5, by rw [h9], h6, h8⟩
  | hw x =>
    refine ⟨_, rfl, ⟨hc, hd, ?_, ?_⟩, ?_, ?_⟩
    · simp only [hardware]; rw [overlay_length]; exact hl
    · simp only [hardware]; exact overlay_samples _ _ hr
    · intro hs; simp [isSuccessCycle] at hs
    · intro _; exact ⟨rfl, rfl, rfl, rfl⟩
  | shared v =>
    refine ⟨_, rfl, ⟨hc, hd, hl, hr⟩, ?_, ?_⟩
    · intro hs; simp [isSuccessCycle] at hs
    · intro _; exact ⟨rfl, rfl, rfl, rfl⟩
  | main =>
    cases hpc : s.pc with
    | sleep =>
      by_cases hf : s.fifoIntrTriggered = true
      · refine ⟨{ s with fifoIntrTriggered := false, pc := Pc.waitDma }, ?_,
          ⟨hc, hd, hl, hr⟩, ?_, ?_⟩
        · simp [step, main_step, hpc, hf]
        · intro hs; simp [isSuccessCycle, hpc] at hs
        · intro _; exact ⟨rfl, rfl, rfl, rfl⟩
      · refine ⟨s, ?_, ⟨hc, hd, hl, hr⟩, ?_, ?_⟩
        · simp [step, main_step, hpc, hf]
        · intro hs; simp [isSuccessCycle, hpc] at hs
        · intro _; exact ⟨rfl, rfl, rfl, rfl⟩
    | waitDma =>
      by_cases hdm : s.dmaIntrTriggered = true
      · by_cases he : s.adc_dma_error = 0
        · by_cases h4 : s.dma_count = 4
          · obtain ⟨v, -, hv⟩ := main_step_window P s hpc hdm he h4
            refine ⟨_, hv, ⟨by simp, by simp, hl, hr⟩, ?_, ?_⟩
            · intro _
              refine ⟨by simp [h4], ?_, ?_⟩
              · simp [h4, avgCount_append_average]
              · intro hlt; omega
            · intro hs; simp [isSuccessCycle, hpc, hdm, he] at hs
          · have hlt : s.dma_count + 1 < 5 := by omega
            have hv := main_step_count P s hpc hdm he hlt
            refine ⟨_, hv, ⟨by simpa using hlt, by simp, hl, hr⟩, ?_, ?_⟩
            · intro _
              refine ⟨?_, ?_, ?_⟩
              · simp only []; rw [Nat.mod_eq_of_lt hlt]
              · simp only []; rw [Nat.div_eq_of_lt hlt]; rfl
              · intro _; exact ⟨rfl, rfl⟩
            · intro hs; simp [isSuccessCycle, hpc, hdm, he] at hs
        · have hstep := main_step_error build P s hpc hdm he
          refine ⟨_, hstep, ⟨hc, hd, hl, hr⟩, ?_, ?_⟩
          · intro hs; simp [isSuccessCycle, he] at hs
          · intro _; exact ⟨rfl, by simp [avgCount_append_dmaError], rfl, rfl⟩
      · refine ⟨s, ?_, ⟨hc, hd, hl, hr⟩, ?_, ?_⟩
        · simp [step, main_step, hpc, hdm]
        · intro hs; simp [isSuccessCycle, hdm] at hs
        · intro _; exact ⟨rfl, rfl, rfl, rfl⟩

/-- The state in which the control loop starts satisfies the invariant. -/
theorem main_start_inv (dst0 : Nat) : LoopInv (main_start build dst0) := by
  refine ⟨by show (0 : Nat) < 5; decide, rfl, ?_, ?_⟩
  · exact List.length_replicate _ _
  · intro x hx
    have hx' : x ∈ List.replicate build.MAX_BUFFER_LENGTH 0 := hx
    rw [List.eq_of_mem_replicate hx']
    decide

/-- Every run of events from a state satisfying the invariant ends in a state
satisfying it; the block counter has advanced by the number of Success cycles
modulo 5 and one average has been printed for every fifth of them. -/
theorem exec_inv (P : Pdl) : ∀ (evs : List Event) (s : State), LoopInv s →
    ∃ s', exec build P evs s = some s' ∧ LoopInv s'
      ∧ s'.dma_count = (s.dma_count + successes build P evs s) % 5
      ∧ avgCount s'.uart = avgCount s.uart + (s.dma_count + successes build P evs s) / 5 := by
  intro evs
  induction evs with
  | nil =>
    intro s h
    refine ⟨s, rfl, h, ?_, ?_⟩
    · simp only [successes, Nat.add_zero]
      exact (Nat.mod_eq_of_lt h.1).symm
    · simp only [successes, Nat.add_zero]
      rw [Nat.div_eq_of_lt h.1]; rfl
  | cons e es ih =>
    intro s h
    obtain ⟨s1, hstep, hinv1, hsucc, hfail⟩ := step_inv P e s h
    obtain ⟨s2, hexec, hinv2, hcnt, havg⟩ := ih s1 hinv1
    refine ⟨s2, ?_, hinv2, ?_, ?_⟩
    · simp only [exec, hstep]; exact hexec
    · simp only [successes, hstep]
      cases hcase : isSuccessCycle e s with
      | true =>
        obtain ⟨hc1, -, -⟩ := hsucc hcase
        rw [hcnt, hc1]; simp only [if_true]; omega
      | false =>
        obtain ⟨hc1, -, -, -⟩ := hfail hcase
        rw [hcnt, hc1]; simp
    · simp only [successes, hstep]
      cases hcase : isSuccessCycle e s with
      | true =>
        obtain ⟨hc1, ha1, -⟩ := hsucc hcase
        rw [havg, ha1, hc1]; simp only [if_true]; omega
      | false =>
        obtain ⟨hc1, ha1, -, -⟩ := hfail hcase
        rw [havg, ha1, hc1]; simp

/-! ## Claims about runs of the control loop -/

/-- C2: start the control loop with the block counter at 0 and let any
sequence of events happen (interrupt handlers, hardware activity, arbitrary
values of the handler-owned variables, control-loop steps), so that the cycles
have any outcomes. With `k` the number of Success cycles so far, the counter
is `k mod 5` and `k / 5` averages have been printed. The next event, if it is a
Success cycle, sets the counter to `(k + 1) mod 5` and prints an average
exactly when `k + 1` is a multiple of 5, which is exactly when the counter is
reset to 0; when the incremented counter is below 5 nothing is printed and the
average is not assigned. Any other event (an Error cycle included) leaves the
counter alone and prints no average. -/
theorem window_counter (P : Pdl) (dst0 : Nat) (evs : List Event) :
    (main_start build dst0).dma_count = 0
    ∧ ∃ s, exec build P evs (main_start build dst0) = some s
      ∧ s.dma_count = successes build P evs (main_start build dst0) % 5
      ∧ avgCount s.uart = successes build P evs (main_start build dst0) / 5
      ∧ ∀ e : Event, ∃ s', step build P e s = some s'
          ∧ (isSuccessCycle e s = true →
              s'.dma_count = (successes build P evs (main_start build dst0) + 1) % 5
              ∧ avgCount s'.uart = avgCount s.uart
                  + (if (successes build P evs (main_start build dst0) + 1) % 5 = 0 then 1 else 0)
              ∧ (s'.dma_count = 0 ↔ (successes build P evs (main_start build dst0) + 1) % 5 = 0)
              ∧ (s.dma_count + 1 = 5 ↔ (successes build P evs (main_start build dst0) + 1) % 5 = 0)
              ∧ (s.dma_count + 1 < 5 →
                  s'.uart = s.uart ∧ s'.average = s.average ∧ s'.dma_count = s.dma_count + 1))
          ∧ (isSuccessCycle e s = false →
              s'.dma_count = s.dma_count ∧ avgCount s'.uart = avgCount s.uart
              ∧ s'.average = s.average) := by
  refine ⟨rfl, ?_⟩
  obtain ⟨s, hexec, hinv, hcnt, havg⟩ := exec_inv P evs (main_start build dst0) (main_start_inv dst0)
  have h0 : (main_start build dst0).dma_count = 0 := rfl
  have hu : avgCount (main_start build dst0).uart = 0 := rfl
  rw [h0, Nat.zero_add] at hcnt havg
  rw [hu, Nat.zero_add] at havg
  refine ⟨s, hexec, hcnt, havg, ?_⟩
  intro e
  obtain ⟨s', hstep, -, hsucc, hfail⟩ := step_inv P e s hinv
  refine ⟨s', hstep, ?_, ?_⟩
  · intro hcase
    obtain ⟨hc1, ha1, hquiet⟩ := hsucc hcase
    have hlt := hinv.1
    refine ⟨by rw [hc1]; omega, ?_, by rw [hc1]; omega, by omega, ?_⟩
    · rw [ha1]
      split_ifs <;> omega
    · intro hlt5
      obtain ⟨hq1, hq2⟩ := hquiet hlt5
      exact ⟨hq1, hq2, by rw [hc1]; exact Nat.mod_eq_of_lt hlt5⟩
  · intro hcase
    obtain ⟨hc1, ha1, -, hav⟩ := hfail hcase
    exact ⟨hc1, ha1, hav⟩

/-- C3: whatever destination the descriptor held when `main` was entered
(`dst0`), `dma_init` sets it to the base of the buffer (offset 0), so the
control loop starts with the destination at offset 0 and the block counter at
0. In every state reached from there by any sequence of events, the
destination offset is 40 times the block counter, the counter is below 5, and the destination segment
of 40 elements lies inside the 200-element buffer. With `k` Success cycles so
far the destination is `40 * (k mod 5)`, so the transfers of a window go to
the offsets 0, 40, 80, 120, 160, which are distinct; a Success cycle moves the
destination to `40 * ((k + 1) mod 5)`, in particular from offset 160 (segment
index 4) back to offset 0, and any other event leaves it where it is. -/
theorem destination_invariant (P : Pdl) (dst0 : Nat) (evs : List Event) :
    (powerOn build dst0).dstAddress = dst0
    ∧ (∀ s : State, (dma_init s).dstAddress = 0
        ∧ (dma_init s).pdlCalls = s.pdlCalls ++ [PdlCall.dmaSetDstAddress 0]
        ∧ (dma_init s).dma_count = s.dma_count)
    ∧ (main_start build dst0).pdlCalls = [PdlCall.dmaSetDstAddress 0]
    ∧ (main_start build dst0).dstAddress = 0
    ∧ (main_start build dst0).dma_count = 0
    ∧ (List.range 5).map (fun j => 40 * j) = [0, 40, 80, 120, 160]
    ∧ ([0, 40, 80, 120, 160] : List Nat).Nodup
    ∧ ∃ s, exec build P evs (main_start build dst0) = some s
      ∧ s.dstAddress = 40 * s.dma_count
      ∧ s.dma_count < 5
      ∧ s.sample_buffer.length = 200
      ∧ s.dstAddress + 40 ≤ s.sample_buffer.length
      ∧ s.dstAddress = 40 * (successes build P evs (main_start build dst0) % 5)
      ∧ (∀ w j, successes build P evs (main_start build dst0) = 5 * w + j → j < 5 →
          s.dstAddress = 40 * j)
      ∧ ∀ e : Event, ∃ s', step build P e s = some s'
          ∧ (isSuccessCycle e s = true →
              s'.dstAddress = 40 * ((successes build P evs (main_start build dst0) + 1) % 5)
              ∧ (s.dstAddress = 160 → s'.dstAddress = 0))
          ∧ (isSuccessCycle e s = false → s'.dstAddress = s.dstAddress) := by
  refine ⟨rfl, fun _ => ⟨rfl, rfl, rfl⟩, rfl, rfl, rfl, by decide, by decide, ?_⟩
  obtain ⟨s, hexec, hinv, hcnt, -⟩ := exec_inv P evs (main_start build dst0) (main_start_inv dst0)
  have h0 : (main_start build dst0).dma_count = 0 := rfl
  rw [h0, Nat.zero_add] at hcnt
  obtain ⟨hlt, hdst, hlen, hr⟩ := hinv
  refine ⟨s, hexec, hdst, hlt, hlen, by omega, by rw [hdst, hcnt], ?_, ?_⟩
  · intro w j hk hj
    rw [hdst, hcnt, hk]
    congr 1
    omega
  · intro e
    obtain ⟨s', hstep, hinv', hsucc, hfail⟩ := step_inv P e s ⟨hlt, hdst, hlen, hr⟩
    refine ⟨s', hstep, ?_, ?_⟩
    · intro hcase
      obtain ⟨hc1, -, -⟩ := hsucc hcase
      obtain ⟨-, hdst', -, -⟩ := hinv'
      refine ⟨by rw [hdst', hc1]; congr 1; omega, ?_⟩
      intro h160
      rw [hdst', hc1]
      omega
    · intro hcase
      exact (hfail hcase).2.2.1

/-- A DMA interrupt with the successful-completion cause does not clear a
recorded error. -/
theorem dma_interrupt_keeps_error (P : Pdl) (s : State)
    (hc : s.dmaStatus = P.CY_DMA_INTR_CAUSE_COMPLETION) :
    (dma_interrupt P s).adc_dma_error = s.adc_dma_error := by
  rw [dma_interrupt_error]
  simp [hc]

/-- C5 (evaluation at the failing input): after a cycle that handled a
destination bus error, the next transfer completes successfully, yet the next
control-loop cycle prints `DMA ERROR 3` again: the block counter is still 0,
the destination is still at offset 0, `adc_dma_error` is still 3 while
`adc_dma_done` is 1. -/
theorem error_outcome_not_reset :
    (exec build psoc6 errorThenCompletion (main_start build 0)).map
        (fun s => (s.uart.drop banner.length, s.dma_count, s.dstAddress,
          s.adc_dma_error, s.adc_dma_done, s.pc))
      = some ([Out.dmaError 3, Out.dmaError 3], 0, 0, 3, 1, Pc.sleep) := by
  decide

/-! ## Overlapping data-ready signals -/

/-- The conversions signed 16-bit to `uint32_t` (store into `result_sum`), to
`uint16_t` (return value) and back to `int16_t` (store into `average`) give
back the signed 16-bit value. -/
theorem int16_round_trip (v : Int) (hlo : -32768 ≤ v) (hhi : v ≤ 32767) :
    toInt16 ((toUInt16 (toUInt32 v) : Nat) : Int) = v := by
  unfold toInt16 toUInt16 toUInt32
  omega

/-- What `calculate_avg` returns in terms of the value the loop leaves in
`result_sum`. -/
theorem calculate_avg_of_loop (cfg : Config) (f : Int → Int) (buf : List Nat) (r : Nat)
    (hr : avg_loop cfg.MAX_BUFFER_LENGTH buf avgFuel ⟨0, 0⟩ = some r)
    (h0 : cfg.MAX_BUFFER_LENGTH ≠ 0) :
    calculate_avg cfg f buf
      = some (toUInt16 (toUInt32 (toInt16
          (f (toInt16 ((r / cfg.MAX_BUFFER_LENGTH : Nat) : Int)))))) := by
  unfold calculate_avg
  rw [hr]
  simp only [h0, if_false]

/-- A conversion to `int16_t` always gives a signed 16-bit value. -/
theorem toInt16_range (x : Int) : -32768 ≤ toInt16 x ∧ toInt16 x ≤ 32767 := by
  unfold toInt16
  omega

/-- A signed 16-bit value is unchanged by the conversion to `int16_t`. -/
theorem toInt16_of_range (v : Int) (hlo : -32768 ≤ v) (hhi : v ≤ 32767) : toInt16 v = v := by
  unfold toInt16
  omega

/-- C11: for every buffer and every calibration function that maps signed
16-bit counts to signed 16-bit values (negative ones included), the Success
cycle that completes a window prints the report `Average of 200 Samples: <V>mV`
in which `V` is the value `v` the calibration function returned for the
truncated mean (the exact mean `sum / 200` for a buffer of 200 16-bit
samples); the same `v` is stored in `average`. The conversions signed 16-bit to
`uint32_t` to `uint16_t` to `int16_t` are the identity on signed 16-bit
values, and the `N` printed is `MAX_BUFFER_LENGTH = 200 = 40 * 5`. -/
theorem report_value (P : Pdl) (s : State)
    (hpc : s.pc = Pc.waitDma) (hdma : s.dmaIntrTriggered = true)
    (herr : s.adc_dma_error = 0) (h4 : s.dma_count = 4)
    (hf : ∀ x : Int, -32768 ≤ x → x ≤ 32767 →
      -32768 ≤ P.Cy_SAR_CountsTo_mVolts x ∧ P.Cy_SAR_CountsTo_mVolts x ≤ 32767) :
    (∃ r s', avg_loop build.MAX_BUFFER_LENGTH s.sample_buffer avgFuel ⟨0, 0⟩ = some r
      ∧ (s.sample_buffer.length = 200 → (∀ x ∈ s.sample_buffer, x < 65536) →
          r = s.sample_buffer.sum)
      ∧ calculate_avg build P.Cy_SAR_CountsTo_mVolts s.sample_buffer
          = some (toUInt16 (toUInt32
              (P.Cy_SAR_CountsTo_mVolts (toInt16 ((r / 200 : Nat) : Int)))))
      ∧ main_step build P s = some s'
      ∧ s'.uart = s.uart
          ++ [Out.average 200 (P.Cy_SAR_CountsTo_mVolts (toInt16 ((r / 200 : Nat) : Int)))]
      ∧ s'.average = P.Cy_SAR_CountsTo_mVolts (toInt16 ((r / 200 : Nat) : Int)))
    ∧ (∀ v : Int, (Out.average 200 v).render
        = "Average of " ++ toString 200 ++ " Samples: " ++ toString v ++ "mV\r\n")
    ∧ (∀ v : Int, -32768 ≤ v → v ≤ 32767 →
        toInt16 ((toUInt16 (toUInt32 v) : Nat) : Int) = v)
    ∧ build.MAX_BUFFER_LENGTH = 200
    ∧ build.SAMPLES_PER_FIFO_LEVEL_INTR * build.WINDOW_BLOCKS = 40 * 5 := by
  refine ⟨?_, fun _ => rfl, int16_round_trip, rfl, rfl⟩
  have hN : build.MAX_BUFFER_LENGTH = 200 := rfl
  obtain ⟨r, hr⟩ := avg_loop_terminates build.MAX_BUFFER_LENGTH s.sample_buffer (by decide)
    build.MAX_BUFFER_LENGTH 0 avgFuel 0 (by omega) (by unfold avgFuel; rw [hN]; omega)
  have hcalc := calculate_avg_of_loop build P.Cy_SAR_CountsTo_mVolts s.sample_buffer r hr
    (by decide)
  rw [hN] at hcalc
  obtain ⟨harg1, harg2⟩ := toInt16_range ((r / 200 : Nat) : Int)
  obtain ⟨hv1, hv2⟩ := hf _ harg1 harg2
  rw [toInt16_of_range _ hv1 hv2] at hcalc
  obtain ⟨v, hv, hstep⟩ := main_step_window P s hpc hdma herr h4
  have hveq : v = toUInt16 (toUInt32
      (P.Cy_SAR_CountsTo_mVolts (toInt16 ((r / 200 : Nat) : Int)))) := by
    rw [hcalc] at hv
    exact (Option.some.inj hv).symm
  have hback : toInt16 ((v : Nat) : Int)
      = P.Cy_SAR_CountsTo_mVolts (toInt16 ((r / 200 : Nat) : Int)) := by
    rw [hveq]
    exact int16_round_trip _ hv1 hv2
  refine ⟨r, _, hr, ?_, hcalc, hstep, ?_, ?_⟩
  · intro hlen hs
    have hex := avg_loop_exact build.MAX_BUFFER_LENGTH s.sample_buffer (by decide) hs
      (by rw [hN]; exact hlen)
    rw [hex] at hr
    exact (Option.some.inj hr).symm
  · simp only [hback]
  · simp only [hback]

/-- Witness for C11: the window completes with a calibration function that
returns -5 millivolts; the report carries -5 and `average` holds -5. -/
theorem report_value_witness :
    ∃ s', main_step build belowZero windowComplete = some s'
      ∧ s'.uart = windowComplete.uart ++ [Out.average 200 (-5)]
      ∧ s'.average = -5
      ∧ (Out.average 200 (-5)).render
          = "Average of " ++ toString 200 ++ " Samples: " ++ toString (-5 : Int) ++ "mV\r\n" := by
  obtain ⟨⟨_, s', _, _, _, hstep, hu, ha⟩, hrender, _⟩ :=
    report_value belowZero windowComplete rfl rfl rfl rfl
      (fun _ _ _ => ⟨by show (-32768 : Int) ≤ -5; decide, by show (-5 : Int) ≤ 32767; decide⟩)
  exact ⟨s', hstep, hu, ha, hrender (-5)⟩

/-! ## Overlapping data-ready signals, from any state -/

end AnalogFrontEnd
